import Mathlib

/-!
Shallow embedding of the Chronicles of a Drifter reflection, serialization
and IPC core (src/Engine/Reflection.h, Serialization.h, ReflectionAPI.cpp,
SerializationAPI.cpp, IPC.h, IPC.cpp), together with theorems settling the
specification claims about it.

Modelling conventions:
* C++ float and double values are modelled by rational numbers; the claims
  only exercise values that the machine floats represent exactly.
* Instance memory is modelled as a typed-cell store, a function from byte
  offset to the scalar value whose storage begins at that offset.  A
  GetValue read of kind T at an offset yields the T stored there; reading
  an offset that does not hold a T is undefined behaviour in the source
  and is modelled by the default value of T.
* Nullable C pointers become Option arguments; a caller-supplied character
  buffer is modelled by the C-string content it holds before and after the
  call, and strncpy into a buffer of size n becomes taking the first n - 1
  characters of the source.
-/

namespace Chronicles

/-- PropertyType from Reflection.h. -/
inductive PropertyType where
  | Bool
  | Int
  | Float
  | Double
  | String
  | Vector2
  | Vector3
  | Color
  | Custom
deriving DecidableEq, Repr

/-- The integer value of each enumerator, as static_cast<int> produces it. -/
def propertyTypeToInt : PropertyType → Int
  | PropertyType.Bool => 0
  | PropertyType.Int => 1
  | PropertyType.Float => 2
  | PropertyType.Double => 3
  | PropertyType.String => 4
  | PropertyType.Vector2 => 5
  | PropertyType.Vector3 => 6
  | PropertyType.Color => 7
  | PropertyType.Custom => 8

/-- A typed memory cell: the scalar value whose storage begins at a byte
offset of an instance. -/
inductive ScalarValue where
  | VBool (b : Bool)
  | VInt (i : Int)
  | VFloat (q : ℚ)
  | VDouble (q : ℚ)
  | VString (s : String)
  | VUndef
deriving DecidableEq

/-- Instance memory: byte offset to typed cell. -/
def Instance := Nat → ScalarValue

/-- Read a bool cell (GetValue of bool). -/
def readBool (m : Instance) (off : Nat) : Bool :=
  match m off with | .VBool b => b | _ => false

/-- Read an int cell (GetValue of int). -/
def readInt (m : Instance) (off : Nat) : Int :=
  match m off with | .VInt i => i | _ => 0

/-- Read a float cell (GetValue of float). -/
def readFloat (m : Instance) (off : Nat) : ℚ :=
  match m off with | .VFloat q => q | _ => 0

/-- Read a double cell (GetValue of double). -/
def readDouble (m : Instance) (off : Nat) : ℚ :=
  match m off with | .VDouble q => q | _ => 0

/-- Read a string cell (GetValue of std::string). -/
def readString (m : Instance) (off : Nat) : String :=
  match m off with | .VString s => s | _ => ""

/-- Write a cell (SetValue of T at the field offset). -/
def writeCell (m : Instance) (off : Nat) (v : ScalarValue) : Instance :=
  fun o => if o = off then v else m o

/-- FieldInfo from Reflection.h: name, property type, byte offset. -/
structure FieldInfo where
  name : String
  type : PropertyType
  offset : Nat
deriving DecidableEq

/-- TypeInfo from Reflection.h: name, size, fields in declaration order. -/
structure TypeInfo where
  name : String
  size : Nat
  fields : List FieldInfo
deriving DecidableEq

/-- TypeInfo::GetField: first field with the given name, none otherwise. -/
def TypeInfo.GetField (ti : TypeInfo) (fieldName : String) : Option FieldInfo :=
  ti.fields.find? (fun f => f.name = fieldName)

/-- The ReflectionRegistry contents: a map from type name to TypeInfo,
modelled as an association list kept in key order (std::map). -/
def Registry := List (String × TypeInfo)

/-- The empty registry. -/
def emptyRegistry : Registry := []

/-- ReflectionRegistry::RegisterType: insert or replace under the name. -/
def RegisterType : Registry → String → TypeInfo → Registry
  | [], n, ti => [(n, ti)]
  | (k, v) :: rest, n, ti =>
    if n < k then (n, ti) :: (k, v) :: rest
    else if n = k then (n, ti) :: rest
    else (k, v) :: RegisterType rest n ti

/-- ReflectionRegistry::GetType: lookup by name, null becomes none. -/
def GetType (reg : Registry) (name : String) : Option TypeInfo :=
  match reg with
  | [] => none
  | (k, v) :: rest => if k = name then some v else GetType rest name

/-- ReflectionRegistry::GetAllTypeNames: the key sequence of the map. -/
def GetAllTypeNames (reg : Registry) : List String :=
  reg.map Prod.fst

end Chronicles

namespace Chronicles

/-! JsonWriter from Serialization.h. -/

/-- JsonWriter state: the accumulated stream text and the indent level. -/
structure JsonWriter where
  m_ss : String
  m_indent : Int

/-- A fresh JsonWriter (constructor sets indent 0, empty stream). -/
def JsonWriter.new : JsonWriter := ⟨"", 0⟩

/-- WriteIndent: append two spaces per indent level. -/
def JsonWriter.WriteIndent (w : JsonWriter) : JsonWriter :=
  { w with m_ss := w.m_ss ++ String.join (List.replicate w.m_indent.toNat "  ") }

/-- BeginObject. -/
def JsonWriter.BeginObject (w : JsonWriter) : JsonWriter :=
  { w with m_ss := w.m_ss ++ "\x7b\n", m_indent := w.m_indent + 1 }

/-- EndObject. -/
def JsonWriter.EndObject (w : JsonWriter) : JsonWriter :=
  let w := { w with m_indent := w.m_indent - 1 }
  let w := w.WriteIndent
  { w with m_ss := w.m_ss ++ "\x7d" }

/-- EscapeString, one character. -/
def escapeChar (c : Char) : String :=
  match c with
  | '\"' => "\\\""
  | '\\' => "\\\\"
  | '\n' => "\\n"
  | '\r' => "\\r"
  | '\t' => "\\t"
  | _ => String.singleton c

/-- JsonWriter::EscapeString. -/
def EscapeString (s : String) : String :=
  String.join (s.toList.map escapeChar)

/-- Pad the fractional digits to width 6 with leading zeros. -/
def padZeros6 (n : Nat) : String :=
  let s := toString n
  String.mk (List.replicate (6 - s.length) '0') ++ s

/-- Fixed-point formatting with 6 digits after the decimal point, the
effect of std::fixed with std::setprecision(6) on the stream.  The scaled
magnitude is round(|num| * 10^6 / den), computed in Nat arithmetic; this
is exact for every value the claims exercise. -/
def formatFixed6 (q : ℚ) : String :=
  let n : Nat := q.num.natAbs * 1000000
  let scaled : Nat := (2 * n + q.den) / (2 * q.den)
  (if q.num < 0 then "-" else "") ++ toString (scaled / 1000000) ++ "." ++ padZeros6 (scaled % 1000000)

/-- WriteField for bool. -/
def JsonWriter.WriteFieldBool (w : JsonWriter) (key : String) (value : Bool) (comma : Bool) : JsonWriter :=
  let w := w.WriteIndent
  { w with m_ss := w.m_ss ++ "\"" ++ key ++ "\": " ++ (if value then "true" else "false")
      ++ (if comma then "," else "") ++ "\n" }

/-- WriteField for int. -/
def JsonWriter.WriteFieldInt (w : JsonWriter) (key : String) (value : Int) (comma : Bool) : JsonWriter :=
  let w := w.WriteIndent
  { w with m_ss := w.m_ss ++ "\"" ++ key ++ "\": " ++ toString value
      ++ (if comma then "," else "") ++ "\n" }

/-- WriteField for float. -/
def JsonWriter.WriteFieldFloat (w : JsonWriter) (key : String) (value : ℚ) (comma : Bool) : JsonWriter :=
  let w := w.WriteIndent
  { w with m_ss := w.m_ss ++ "\"" ++ key ++ "\": " ++ formatFixed6 value
      ++ (if comma then "," else "") ++ "\n" }

/-- WriteField for double. -/
def JsonWriter.WriteFieldDouble (w : JsonWriter) (key : String) (value : ℚ) (comma : Bool) : JsonWriter :=
  let w := w.WriteIndent
  { w with m_ss := w.m_ss ++ "\"" ++ key ++ "\": " ++ formatFixed6 value
      ++ (if comma then "," else "") ++ "\n" }

/-- WriteField for std::string. -/
def JsonWriter.WriteFieldString (w : JsonWriter) (key : String) (value : String) (comma : Bool) : JsonWriter :=
  let w := w.WriteIndent
  { w with m_ss := w.m_ss ++ "\"" ++ key ++ "\": " ++ "\"" ++ EscapeString value ++ "\""
      ++ (if comma then "," else "") ++ "\n" }

/-- GetJson. -/
def JsonWriter.GetJson (w : JsonWriter) : String := w.m_ss

/-- The switch body of SerializeObject: write one field, or skip it. -/
def writeFieldValue (w : JsonWriter) (m : Instance) (f : FieldInfo) (isLast : Bool) : JsonWriter :=
  match f.type with
  | .Bool => w.WriteFieldBool f.name (readBool m f.offset) (!isLast)
  | .Int => w.WriteFieldInt f.name (readInt m f.offset) (!isLast)
  | .Float => w.WriteFieldFloat f.name (readFloat m f.offset) (!isLast)
  | .Double => w.WriteFieldDouble f.name (readDouble m f.offset) (!isLast)
  | .String => w.WriteFieldString f.name (readString m f.offset) (!isLast)
  | _ => w

/-- The field loop of SerializeObject (isLast at the final index). -/
def serializeFields (w : JsonWriter) (m : Instance) : List FieldInfo → JsonWriter
  | [] => w
  | [f] => writeFieldValue w m f true
  | f :: g :: rest => serializeFields (writeFieldValue w m f false) m (g :: rest)

/-- SerializeObject from Serialization.h. -/
def SerializeObject (reg : Registry) (typeName : String) (inst : Option Instance) : String :=
  match GetType reg typeName, inst with
  | some ti, some m =>
    let w := JsonWriter.new.BeginObject
    let w := serializeFields w m ti.fields
    w.EndObject.GetJson
  | _, _ => "\x7b\x7d"

end Chronicles

namespace Chronicles

/-! Flat C API from ReflectionAPI.cpp and SerializationAPI.cpp.  A caller
buffer is modelled by its C-string content before (oldBuf) and after the
call; strncpy of s into a buffer of size n followed by
buffer[n - 1] = 0 leaves the first n - 1 characters of s. -/

/-- Resulting C-string content of strncpy(buffer, s, bufferSize - 1)
followed by buffer[bufferSize - 1] = 0. -/
def cstrWrite (s : String) (bufferSize : Int) : String :=
  String.mk (s.toList.take (bufferSize - 1).toNat)

/-- Reflection_GetTypeCount. -/
def Reflection_GetTypeCount (reg : Registry) : Int :=
  (GetAllTypeNames reg).length

/-- Reflection_GetTypeName.  Returns the buffer content after the call;
a null buffer is not modelled (the buffer is the value passed around). -/
def Reflection_GetTypeName (reg : Registry) (index : Int) (oldBuf : String) (bufferSize : Int) : String :=
  if bufferSize ≤ 0 then oldBuf
  else
    let names := GetAllTypeNames reg
    if 0 ≤ index ∧ index < (names.length : Int) then
      cstrWrite (names.getD index.toNat "") bufferSize
    else
      ""

/-- Reflection_GetFieldName. -/
def Reflection_GetFieldName (reg : Registry) (typeName : Option String) (fieldIndex : Int)
    (oldBuf : String) (bufferSize : Int) : String :=
  match typeName with
  | none => oldBuf
  | some tn =>
    if bufferSize ≤ 0 then oldBuf
    else
      match GetType reg tn with
      | some ti =>
        if 0 ≤ fieldIndex ∧ fieldIndex < (ti.fields.length : Int) then
          cstrWrite (ti.fields.getD fieldIndex.toNat ⟨"", PropertyType.Custom, 0⟩).name bufferSize
        else ""
      | none => ""

/-- Reflection_GetFloatValue. -/
def Reflection_GetFloatValue (reg : Registry) (typeName fieldName : Option String)
    (inst : Option Instance) : ℚ :=
  match typeName, fieldName, inst with
  | some tn, some fn, some m =>
    match GetType reg tn with
    | none => 0
    | some ti =>
      match ti.GetField fn with
      | none => 0
      | some f => if f.type = PropertyType.Float then readFloat m f.offset else 0
  | _, _, _ => 0

/-- Reflection_SetFloatValue; the returned value is the instance memory
after the call. -/
def Reflection_SetFloatValue (reg : Registry) (typeName fieldName : Option String)
    (inst : Option Instance) (value : ℚ) : Option Instance :=
  match typeName, fieldName, inst with
  | some tn, some fn, some m =>
    match GetType reg tn with
    | none => some m
    | some ti =>
      match ti.GetField fn with
      | none => some m
      | some f =>
        if f.type = PropertyType.Float then some (writeCell m f.offset (ScalarValue.VFloat value))
        else some m
  | _, _, i => i

/-- Reflection_GetIntValue. -/
def Reflection_GetIntValue (reg : Registry) (typeName fieldName : Option String)
    (inst : Option Instance) : Int :=
  match typeName, fieldName, inst with
  | some tn, some fn, some m =>
    match GetType reg tn with
    | none => 0
    | some ti =>
      match ti.GetField fn with
      | none => 0
      | some f => if f.type = PropertyType.Int then readInt m f.offset else 0
  | _, _, _ => 0

/-- Reflection_SetIntValue. -/
def Reflection_SetIntValue (reg : Registry) (typeName fieldName : Option String)
    (inst : Option Instance) (value : Int) : Option Instance :=
  match typeName, fieldName, inst with
  | some tn, some fn, some m =>
    match GetType reg tn with
    | none => some m
    | some ti =>
      match ti.GetField fn with
      | none => some m
      | some f =>
        if f.type = PropertyType.Int then some (writeCell m f.offset (ScalarValue.VInt value))
        else some m
  | _, _, i => i

/-- Reflection_GetBoolValue. -/
def Reflection_GetBoolValue (reg : Registry) (typeName fieldName : Option String)
    (inst : Option Instance) : Bool :=
  match typeName, fieldName, inst with
  | some tn, some fn, some m =>
    match GetType reg tn with
    | none => false
    | some ti =>
      match ti.GetField fn with
      | none => false
      | some f => if f.type = PropertyType.Bool then readBool m f.offset else false
  | _, _, _ => false

/-- Reflection_SetBoolValue. -/
def Reflection_SetBoolValue (reg : Registry) (typeName fieldName : Option String)
    (inst : Option Instance) (value : Bool) : Option Instance :=
  match typeName, fieldName, inst with
  | some tn, some fn, some m =>
    match GetType reg tn with
    | none => some m
    | some ti =>
      match ti.GetField fn with
      | none => some m
      | some f =>
        if f.type = PropertyType.Bool then some (writeCell m f.offset (ScalarValue.VBool value))
        else some m
  | _, _, i => i

/-- Reflection_GetStringValue: the result is the buffer content after the
call. -/
def Reflection_GetStringValue (reg : Registry) (typeName fieldName : Option String)
    (inst : Option Instance) (oldBuf : String) (bufferSize : Int) : String :=
  match typeName, fieldName, inst with
  | some tn, some fn, some m =>
    if bufferSize ≤ 0 then oldBuf
    else
      match GetType reg tn with
      | none => ""
      | some ti =>
        match ti.GetField fn with
        | none => ""
        | some f =>
          if f.type = PropertyType.String then cstrWrite (readString m f.offset) bufferSize
          else ""
  | _, _, _ => oldBuf

/-- Reflection_SetStringValue. -/
def Reflection_SetStringValue (reg : Registry) (typeName fieldName : Option String)
    (inst : Option Instance) (value : Option String) : Option Instance :=
  match typeName, fieldName, inst, value with
  | some tn, some fn, some m, some v =>
    match GetType reg tn with
    | none => some m
    | some ti =>
      match ti.GetField fn with
      | none => some m
      | some f =>
        if f.type = PropertyType.String then some (writeCell m f.offset (ScalarValue.VString v))
        else some m
  | _, _, i, _ => i

/-- Serialization_ToJson: returns the int return value and the buffer
content after the call. -/
def Serialization_ToJson (reg : Registry) (typeName : Option String) (inst : Option Instance)
    (oldBuf : String) (bufferSize : Int) : Int × String :=
  match typeName, inst with
  | some tn, some m =>
    if bufferSize ≤ 0 then (-1, oldBuf)
    else
      let json := SerializeObject reg tn (some m)
      if (json.length : Int) ≥ bufferSize then (-1, oldBuf)
      else ((json.length : Int), cstrWrite json bufferSize)
  | _, _ => (-1, oldBuf)

end Chronicles

namespace Chronicles

/-! IPC model from IPC.h and IPC.cpp. -/

/-- MessageType from IPC.h. -/
inductive MessageType where
  | GetTypes
  | GetTypeInfo
  | GetSceneObjects
  | GetObjectProperties
  | SetProperty
  | CreateObject
  | DeleteObject
  | LoadScene
  | SaveScene
  | Response
  | Error
  | ObjectSelected
  | ObjectModified
  | SceneChanged
deriving DecidableEq, Repr

/-- naive substring search: std::string::find(pat, start), none for npos.
Returns the least index of an occurrence of pat at or after start. -/
def occursAt (s pat : String) (i : Nat) : Bool :=
  (s.toList.drop i).take pat.length == pat.toList

/-- std::string::find(pat, start); none models npos. -/
def strFind (s pat : String) (start : Nat) : Option Nat :=
  (List.range (s.length + 1)).find? (fun i => decide (start ≤ i) && occursAt s pat i)

/-- std::string::npos as a 64-bit size_t value. -/
def NPOS : Nat := 2 ^ 64 - 1

/-- The type-name extraction of the GetTypeInfo handler.  The source
computes start = payload.find(quote colon quote) + 3 in size_t arithmetic,
so a failed find gives start = npos + 3 = 2 (wraparound), and the
start == npos test can never fire; the stop position is the first quote at
or after start, npos when absent.  Returns none exactly when the handler
answers Invalid request. -/
def extractTypeName (payload : String) : Option String :=
  let start : Nat :=
    match strFind payload "\":\"" 0 with
    | some i => i + 3
    | none => (NPOS + 3) % 2 ^ 64
  let stop : Nat :=
    match strFind payload "\"" start with
    | some j => j
    | none => NPOS
  if start = NPOS ∨ stop = NPOS then none
  else some (String.mk ((payload.toList.drop start).take (stop - start)))

/-- One field entry of the GetTypeInfo response. -/
def renderFieldEntry (f : FieldInfo) : String :=
  "\x7b\"name\":\"" ++ f.name ++ "\",\"type\":" ++ toString (propertyTypeToInt f.type) ++ "\x7d"

/-- The default GetTypeInfo handler registered by
IPCServer::InitializeDefaultHandlers. -/
def handleGetTypeInfo (reg : Registry) (payload : String) : String :=
  match extractTypeName payload with
  | none => "\x7b\"error\":\"Invalid request\"\x7d"
  | some tn =>
    match GetType reg tn with
    | none => "\x7b\"error\":\"Type not found\"\x7d"
    | some ti =>
      "\x7b\"name\":\"" ++ ti.name ++ "\",\"size\":" ++ toString ti.size ++ ",\"fields\":[" ++
        String.intercalate "," (ti.fields.map renderFieldEntry) ++ "]\x7d"

/-- The default GetTypes handler. -/
def handleGetTypes (reg : Registry) (payload : String) : String :=
  "[" ++ String.intercalate "," ((GetAllTypeNames reg).map (fun n => "\"" ++ n ++ "\"")) ++ "]"

/-- IPCServer state: running flag, pipe name, handler table. -/
structure IPCServer where
  m_running : Bool
  m_pipeName : String
  m_handlers : MessageType → Option (String → String)

/-- IPCServer::RegisterHandler: last registration wins. -/
def IPCServer.RegisterHandler (s : IPCServer) (t : MessageType) (h : String → String) : IPCServer :=
  { s with m_handlers := fun t2 => if t2 = t then some h else s.m_handlers t2 }

/-- IPCServer::InitializeDefaultHandlers.  The source handlers read the
process-wide ReflectionRegistry; the registry contents are passed in. -/
def IPCServer.InitializeDefaultHandlers (s : IPCServer) (reg : Registry) : IPCServer :=
  (s.RegisterHandler MessageType.GetTypes (handleGetTypes reg)).RegisterHandler
    MessageType.GetTypeInfo (handleGetTypeInfo reg)

/-- The IPCServer constructor: running false, then default handlers. -/
def IPCServer.new (reg : Registry) : IPCServer :=
  IPCServer.InitializeDefaultHandlers ⟨false, "", fun _ => none⟩ reg

/-- IPCServer::IsRunning. -/
def IPCServer.IsRunning (s : IPCServer) : Bool := s.m_running

/-- IPCServer::Start: early return true when already running; otherwise
store the pipe name and set m_running = false (stub: set to true when
actually implemented), returning m_running. -/
def IPCServer.Start (s : IPCServer) (pipeName : String) : Bool × IPCServer :=
  if s.m_running then (true, s)
  else
    let s := { s with m_pipeName := pipeName }
    let s := { s with m_running := false }
    (s.m_running, s)

/-- IPCServer::Stop: early return when not running. -/
def IPCServer.Stop (s : IPCServer) : IPCServer :=
  if !s.m_running then s else { s with m_running := false }

/-- IPCServer::Update: early return when not running; the poll body is a
stub that changes nothing. -/
def IPCServer.Update (s : IPCServer) : IPCServer :=
  if !s.m_running then s else s

/-- IPCServer::SendEvent: early return when not running; the send body is
a stub that changes nothing. -/
def IPCServer.SendEvent (s : IPCServer) (t : MessageType) (payload : String) : IPCServer :=
  if !s.m_running then s else s

/-- IPCServer::HandleMessage. -/
def IPCServer.HandleMessage (s : IPCServer) (t : MessageType) (payload : String) : String :=
  match s.m_handlers t with
  | none => "\x7b\"error\":\"Unknown message type\"\x7d"
  | some h => h payload

/-- IPCClient state. -/
structure IPCClient where
  m_connected : Bool
  m_pipeName : String
  m_nextRequestId : Int

/-- The IPCClient constructor. -/
def IPCClient.new : IPCClient := ⟨false, "", 1⟩

/-- IPCClient::Connect (stub: m_connected stays false). -/
def IPCClient.Connect (c : IPCClient) (pipeName : String) : Bool × IPCClient :=
  if c.m_connected then (true, c)
  else
    let c := { c with m_pipeName := pipeName }
    let c := { c with m_connected := false }
    (c.m_connected, c)

/-- IPCClient::Disconnect. -/
def IPCClient.Disconnect (c : IPCClient) : IPCClient :=
  if !c.m_connected then c else { c with m_connected := false }

/-- IPCClient::SendCommand: Not connected error when not connected;
otherwise consumes a request id and answers Not implemented. -/
def IPCClient.SendCommand (c : IPCClient) (t : MessageType) (payload : String) : String × IPCClient :=
  if !c.m_connected then ("\x7b\"error\":\"Not connected\"\x7d", c)
  else ("\x7b\"error\":\"Not implemented\"\x7d", { c with m_nextRequestId := c.m_nextRequestId + 1 })

/-- static_cast<MessageType>(int) for the enumerator range; the stub send
path never inspects the value. -/
def intToMessageType (i : Int) : MessageType :=
  if i = 0 then MessageType.GetTypes
  else if i = 1 then MessageType.GetTypeInfo
  else if i = 2 then MessageType.GetSceneObjects
  else if i = 3 then MessageType.GetObjectProperties
  else if i = 4 then MessageType.SetProperty
  else if i = 5 then MessageType.CreateObject
  else if i = 6 then MessageType.DeleteObject
  else if i = 7 then MessageType.LoadScene
  else if i = 8 then MessageType.SaveScene
  else if i = 9 then MessageType.Response
  else if i = 10 then MessageType.Error
  else if i = 11 then MessageType.ObjectSelected
  else if i = 12 then MessageType.ObjectModified
  else MessageType.SceneChanged

/-- IPC_ClientSendCommand: returns the bool result, the response buffer
content after the call, and the client state after the call. -/
def IPC_ClientSendCommand (client : Option IPCClient) (commandType : Int) (payload : Option String)
    (oldResp : String) (responseSize : Int) : Bool × String × Option IPCClient :=
  match client, payload with
  | some c, some pl =>
    if responseSize ≤ 0 then (false, oldResp, some c)
    else
      let r := c.SendCommand (intToMessageType commandType) pl
      (!(r.1.isEmpty), cstrWrite r.1 responseSize, some r.2)
  | c, _ => (false, oldResp, c)

/-- One observable server call, for stating state-machine invariants. -/
inductive ServerOp where
  | start (pipeName : String)
  | stop
  | update
  | sendEvent (t : MessageType) (payload : String)
  | registerHandler (t : MessageType) (h : String → String)

/-- Apply one call to the server state. -/
def applyOp (s : IPCServer) : ServerOp → IPCServer
  | ServerOp.start p => (s.Start p).2
  | ServerOp.stop => s.Stop
  | ServerOp.update => s.Update
  | ServerOp.sendEvent t pl => s.SendEvent t pl
  | ServerOp.registerHandler t h => s.RegisterHandler t h

/-- Apply a call sequence to the server state. -/
def applyOps (s : IPCServer) (ops : List ServerOp) : IPCServer :=
  ops.foldl applyOp s

end Chronicles

namespace Chronicles

/-! Specification-side rendering of SerializeObject output, written from
the spec words for claim C2: one member per field of an emitted scalar
kind, in declaration order, members separated by comma-newline, no comma
after the last member. -/

/-- The five FieldKinds that SerializeObject emits. -/
def isEmittedKind : PropertyType → Bool
  | PropertyType.Bool => true
  | PropertyType.Int => true
  | PropertyType.Float => true
  | PropertyType.Double => true
  | PropertyType.String => true
  | _ => false

/-- The JSON literal text a field value produces. -/
def fieldValueString (m : Instance) (f : FieldInfo) : String :=
  match f.type with
  | PropertyType.Bool => if readBool m f.offset then "true" else "false"
  | PropertyType.Int => toString (readInt m f.offset)
  | PropertyType.Float => formatFixed6 (readFloat m f.offset)
  | PropertyType.Double => formatFixed6 (readDouble m f.offset)
  | PropertyType.String => "\"" ++ EscapeString (readString m f.offset) ++ "\""
  | _ => ""

/-- Modelled from the spec: the single JSON member a field contributes,
none for a skipped kind. -/
def memberLine (m : Instance) (f : FieldInfo) : Option String :=
  if isEmittedKind f.type then some ("  \"" ++ f.name ++ "\": " ++ fieldValueString m f)
  else none

/-- Modelled from the spec: members joined by comma-newline, newline after
the last member, nothing when there is no member. -/
def specBodyAux : List String → String
  | [] => ""
  | [l] => l ++ "\n"
  | l :: l2 :: ls => l ++ ",\n" ++ specBodyAux (l2 :: ls)

/-- Modelled from the spec: the object SerializeObject should print. -/
def specRender (m : Instance) (fs : List FieldInfo) : String :=
  "\x7b\n" ++ specBodyAux (fs.filterMap (memberLine m)) ++ "\x7d"

/-- Whether the last declared field (if any) is of an emitted kind. -/
def lastEmitted : List FieldInfo → Bool
  | [] => true
  | [f] => isEmittedKind f.type
  | _ :: g :: rest => lastEmitted (g :: rest)

/-- The text one field appends inside the loop of SerializeObject. -/
def chunk (m : Instance) (f : FieldInfo) (comma : Bool) : String :=
  match memberLine m f with
  | some l => l ++ (if comma then ",\n" else "\n")
  | none => ""

/-- The text the whole loop of SerializeObject appends. -/
def codeBody (m : Instance) : List FieldInfo → String
  | [] => ""
  | [f] => chunk m f false
  | f :: g :: rest => chunk m f true ++ codeBody m (g :: rest)

/-- Member join in which every member keeps a trailing comma-newline: the
shape the output takes when the declaration-last field is skipped, since
then every emitted field is non-last in declaration order. -/
def specBodyComma : List String → String
  | [] => ""
  | l :: ls => l ++ ",\n" ++ specBodyComma ls

/-- The object printed when the last declared field is of a skipped kind:
one member per emitted field in declaration order, each member keeping
its trailing comma. -/
def specRenderCommaKept (m : Instance) (fs : List FieldInfo) : String :=
  "\x7b\n" ++ specBodyComma (fs.filterMap (memberLine m)) ++ "\x7d"

end Chronicles

namespace Chronicles

/-! Concrete fixtures used by witnesses and counterexamples. -/

/-- The Point type of the specification scenario: two float fields at
offsets 0 and 4, size 8. -/
def pointTy : TypeInfo := ⟨"Point", 8, [⟨"x", PropertyType.Float, 0⟩, ⟨"y", PropertyType.Float, 4⟩]⟩

/-- A registry holding exactly Point. -/
def pointReg : Registry := RegisterType emptyRegistry "Point" pointTy

/-- An instance of Point with x = 10.0 and y = 20.0. -/
def pointMem : Instance :=
  fun o => if o = 0 then ScalarValue.VFloat 10 else if o = 4 then ScalarValue.VFloat 20 else ScalarValue.VUndef

/-- A type whose last declared field is of a skipped kind. -/
def badTy : TypeInfo := ⟨"Bad", 16, [⟨"x", PropertyType.Float, 0⟩, ⟨"v", PropertyType.Vector2, 4⟩]⟩

/-- A registry holding exactly Bad. -/
def badReg : Registry := RegisterType emptyRegistry "Bad" badTy

/-- An instance of Bad with x = 1.0. -/
def badMem : Instance :=
  fun o => if o = 0 then ScalarValue.VFloat 1 else ScalarValue.VUndef

/-- A type with one field of each of the four flat-API accessor kinds. -/
def mixTy : TypeInfo :=
  ⟨"Mix", 32, [⟨"b", PropertyType.Bool, 0⟩, ⟨"i", PropertyType.Int, 4⟩,
    ⟨"f", PropertyType.Float, 8⟩, ⟨"s", PropertyType.String, 16⟩]⟩

/-- A registry holding exactly Mix. -/
def mixReg : Registry := RegisterType emptyRegistry "Mix" mixTy

/-- All-undefined instance memory. -/
def zeroMem : Instance := fun _ => ScalarValue.VUndef

/-- An instance whose string field at offset 16 holds a long value. -/
def strMem : Instance :=
  fun o => if o = 16 then ScalarValue.VString "hello world" else ScalarValue.VUndef

/-- The error condition of the typed flat-API getters: type not found,
field not found, or declared kind different from the accessor kind. -/
def getterErrorCond (reg : Registry) (tn fn : String) (k : PropertyType) : Prop :=
  GetType reg tn = none ∨
  (∃ ti, GetType reg tn = some ti ∧ ti.GetField fn = none) ∨
  (∃ ti f, GetType reg tn = some ti ∧ ti.GetField fn = some f ∧ f.type ≠ k)

end Chronicles

namespace Chronicles

/-! String toolbox shared by the proofs. -/

theorem str_empty_append (s : String) : "" ++ s = s := rfl

theorem strMergeL (a b c : String) (h : a ++ b = c) (x : String) : a ++ (b ++ x) = c ++ x := by
  rw [← String.append_assoc, h]

theorem joinIndentOne : String.join (List.replicate (Int.toNat 1) "  ") = "  " := rfl

/-- Each field of the loop body appends exactly its chunk and keeps the
indent at 1. -/
theorem writeFieldValue_ss (w : JsonWriter) (h : w.m_indent = 1) (m : Instance) (f : FieldInfo)
    (isLast : Bool) :
    (writeFieldValue w m f isLast).m_ss = w.m_ss ++ chunk m f (!isLast) ∧
    (writeFieldValue w m f isLast).m_indent = 1 := by
  rcases f with ⟨name, ptype, off⟩
  cases ptype <;> cases isLast <;>
    simp only [writeFieldValue, JsonWriter.WriteFieldBool, JsonWriter.WriteFieldInt,
      JsonWriter.WriteFieldFloat, JsonWriter.WriteFieldDouble, JsonWriter.WriteFieldString,
      JsonWriter.WriteIndent, chunk, memberLine, isEmittedKind, fieldValueString, h,
      joinIndentOne, Bool.not_true, Bool.not_false, if_true, if_false, ite_true, ite_false,
      String.append_assoc, String.append_empty, str_empty_append,
      strMergeL "  " "\"" "  \"" rfl, and_true, true_and, and_self] <;>
    simp [show ("," : String) ++ "\n" = ",\n" from rfl]

/-- The loop of SerializeObject appends codeBody and keeps the indent. -/
theorem serializeFields_ss (m : Instance) (fs : List FieldInfo) :
    ∀ w : JsonWriter, w.m_indent = 1 →
      (serializeFields w m fs).m_ss = w.m_ss ++ codeBody m fs ∧
      (serializeFields w m fs).m_indent = 1 := by
  induction fs with
  | nil => intro w h; simp [serializeFields, codeBody, String.append_empty, h]
  | cons f rest ih =>
    intro w h
    cases rest with
    | nil =>
      have hw := writeFieldValue_ss w h m f true
      simpa [serializeFields, codeBody] using hw
    | cons g rest2 =>
      have hw := writeFieldValue_ss w h m f false
      have ih2 := ih (writeFieldValue w m f false) hw.2
      refine ⟨?_, ih2.2⟩
      show (serializeFields (writeFieldValue w m f false) m (g :: rest2)).m_ss = _
      rw [ih2.1, hw.1, String.append_assoc]
      rfl

/-- With a last declared field of emitted kind, the member list is not
empty. -/
theorem filterMap_memberLine_ne_nil (m : Instance) :
    ∀ fs : List FieldInfo, fs ≠ [] → lastEmitted fs = true →
      fs.filterMap (memberLine m) ≠ [] := by
  intro fs
  induction fs with
  | nil => intro h; exact absurd rfl h
  | cons f rest ih =>
    intro _ hlast
    cases rest with
    | nil =>
      have hem : isEmittedKind f.type = true := hlast
      simp [memberLine, hem]
    | cons g rest2 =>
      have hlast2 : lastEmitted (g :: rest2) = true := hlast
      have htail := ih (by simp) hlast2
      cases hm : memberLine m f with
      | none => simpa [List.filterMap_cons, hm] using htail
      | some l => simp [List.filterMap_cons, hm]

/-- With a last declared field of emitted kind, the loop body equals the
spec-side member join. -/
theorem codeBody_eq_spec (m : Instance) :
    ∀ fs : List FieldInfo, lastEmitted fs = true →
      codeBody m fs = specBodyAux (fs.filterMap (memberLine m)) := by
  intro fs
  induction fs with
  | nil => intro _; rfl
  | cons f rest ih =>
    intro hlast
    cases rest with
    | nil =>
      have hem : isEmittedKind f.type = true := hlast
      simp [codeBody, chunk, memberLine, hem, List.filterMap_cons, specBodyAux]
    | cons g rest2 =>
      have hlast2 : lastEmitted (g :: rest2) = true := hlast
      have htail := ih hlast2
      cases hm : memberLine m f with
      | none =>
        have : chunk m f true = "" := by simp [chunk, hm]
        simp [codeBody, this, List.filterMap_cons, hm, htail, str_empty_append]
      | some l =>
        have hne := filterMap_memberLine_ne_nil m (g :: rest2) (by simp) hlast2
        obtain ⟨x, xs, hx⟩ := List.exists_cons_of_ne_nil hne
        have hch : chunk m f true = l ++ ",\n" := by simp [chunk, hm]
        simp only [codeBody, hch, List.filterMap_cons, hm, htail, hx, specBodyAux,
          String.append_assoc]

/-- With a last declared field of skipped kind, the loop body equals the
comma-kept member join: every emitted field is non-last in declaration
order, so every member receives a comma, and the skipped fields append
nothing. -/
theorem codeBody_eq_spec_comma (m : Instance) :
    ∀ fs : List FieldInfo, lastEmitted fs = false →
      codeBody m fs = specBodyComma (fs.filterMap (memberLine m)) := by
  intro fs
  induction fs with
  | nil => intro h; simp [lastEmitted] at h
  | cons f rest ih =>
    intro hlast
    cases rest with
    | nil =>
      have hem : isEmittedKind f.type = false := hlast
      simp [codeBody, chunk, memberLine, hem, List.filterMap_cons, specBodyComma]
    | cons g rest2 =>
      have hlast2 : lastEmitted (g :: rest2) = false := hlast
      have htail := ih hlast2
      cases hm : memberLine m f with
      | none =>
        have hch : chunk m f true = "" := by simp [chunk, hm]
        simp [codeBody, hch, List.filterMap_cons, hm, htail, str_empty_append]
      | some l =>
        have hch : chunk m f true = l ++ ",\n" := by simp [chunk, hm]
        simp only [codeBody, hch, List.filterMap_cons, hm, htail, specBodyComma,
          String.append_assoc]

/-- SerializeObject, on a found type and non-null instance whose last
declared field is of an emitted kind, prints exactly the spec-side
rendering. -/
theorem SerializeObject_eq_specRender (reg : Registry) (tn : String) (ti : TypeInfo)
    (m : Instance) (hty : GetType reg tn = some ti) (hlast : lastEmitted ti.fields = true) :
    SerializeObject reg tn (some m) = specRender m ti.fields := by
  have hsf := serializeFields_ss m ti.fields (JsonWriter.new.BeginObject) rfl
  have hbody := codeBody_eq_spec m ti.fields hlast
  unfold SerializeObject
  rw [hty]
  show (serializeFields (JsonWriter.new.BeginObject) m ti.fields).EndObject.GetJson = _
  simp only [JsonWriter.GetJson, JsonWriter.EndObject, JsonWriter.WriteIndent]
  rw [hsf.2, hsf.1, hbody]
  rw [show String.join (List.replicate ((1 : Int) - 1).toNat "  ") = "" from rfl,
    String.append_empty]
  rfl

/-- SerializeObject, on a found type and non-null instance whose last
declared field is of a skipped kind, prints exactly the comma-kept
rendering. -/
theorem SerializeObject_eq_renderCommaKept (reg : Registry) (tn : String) (ti : TypeInfo)
    (m : Instance) (hty : GetType reg tn = some ti) (hlast : lastEmitted ti.fields = false) :
    SerializeObject reg tn (some m) = specRenderCommaKept m ti.fields := by
  have hsf := serializeFields_ss m ti.fields (JsonWriter.new.BeginObject) rfl
  have hbody := codeBody_eq_spec_comma m ti.fields hlast
  unfold SerializeObject
  rw [hty]
  show (serializeFields (JsonWriter.new.BeginObject) m ti.fields).EndObject.GetJson = _
  simp only [JsonWriter.GetJson, JsonWriter.EndObject, JsonWriter.WriteIndent]
  rw [hsf.2, hsf.1, hbody]
  rw [show String.join (List.replicate ((1 : Int) - 1).toNat "  ") = "" from rfl,
    String.append_empty]
  rfl

end Chronicles

namespace Chronicles

/-! The claim theorems. -/

/-- C1: with Point registered as two Float fields x at offset 0 and y at
offset 4, size 8, and an instance holding the float values 10.0 at offset
0 and 20.0 at offset 4, SerializeObject produces exactly the two members
in declaration order with fixed-point 6-decimal formatting. -/
theorem C1_serialize_point (reg : Registry) (m : Instance)
    (hreg : GetType reg "Point" = some pointTy)
    (hx : m 0 = ScalarValue.VFloat 10) (hy : m 4 = ScalarValue.VFloat 20) :
    SerializeObject reg "Point" (some m) =
      "\x7b\n  \"x\": 10.000000,\n  \"y\": 20.000000\n\x7d" := by
  have h1 : readFloat m 0 = 10 := by rw [readFloat, hx]
  have h2 : readFloat m 4 = 20 := by rw [readFloat, hy]
  rw [SerializeObject_eq_specRender reg "Point" pointTy m hreg (by decide)]
  show "\x7b\n" ++ specBodyAux (pointTy.fields.filterMap (memberLine m)) ++ "\x7d" = _
  have hmem : pointTy.fields.filterMap (memberLine m) =
      ["  \"x\": " ++ formatFixed6 (readFloat m 0), "  \"y\": " ++ formatFixed6 (readFloat m 4)] := by
    rfl
  rw [hmem, h1, h2]
  decide

/-- C1 witness: the scenario at the concrete Point registry and memory. -/
theorem C1_serialize_point_witness :
    SerializeObject pointReg "Point" (some pointMem) =
      "\x7b\n  \"x\": 10.000000,\n  \"y\": 20.000000\n\x7d" :=
  C1_serialize_point pointReg pointMem (by decide) (by decide) (by decide)

/-- C2 (amended): on every found type and non-null instance,
SerializeObject prints exactly one member per field of emitted kind
(Bool, Int, Float, Double, String), in declaration order, skipped kinds
contributing nothing; when the last declared field is of an emitted kind
the last member carries no trailing comma, and when it is of a skipped
kind every member (in particular the last) keeps its trailing comma. -/
theorem C2_members_in_order (reg : Registry) (tn : String) (ti : TypeInfo) (m : Instance)
    (hty : GetType reg tn = some ti) :
    SerializeObject reg tn (some m) =
      if lastEmitted ti.fields then specRender m ti.fields
      else specRenderCommaKept m ti.fields := by
  cases hl : lastEmitted ti.fields with
  | true =>
    rw [if_pos rfl]
    exact SerializeObject_eq_specRender reg tn ti m hty hl
  | false =>
    rw [if_neg (by simp)]
    exact SerializeObject_eq_renderCommaKept reg tn ti m hty hl

/-- C2 counterexample: when the last declared field is of a skipped kind
the member before it keeps its trailing comma, so the output differs from
the claimed comma-free rendering. -/
theorem C2_members_counterexample :
    SerializeObject badReg "Bad" (some badMem) = "\x7b\n  \"x\": 1.000000,\n\x7d" ∧
    SerializeObject badReg "Bad" (some badMem) ≠ specRender badMem badTy.fields := by
  constructor
  · decide
  · decide

/-- C2 witness: the amended claim at the Mix type (emitted last field)
and at the Bad type (skipped last field). -/
theorem C2_members_in_order_witness :
    SerializeObject mixReg "Mix" (some strMem) =
      (if lastEmitted mixTy.fields then specRender strMem mixTy.fields
       else specRenderCommaKept strMem mixTy.fields) ∧
    SerializeObject badReg "Bad" (some badMem) =
      (if lastEmitted badTy.fields then specRender badMem badTy.fields
       else specRenderCommaKept badMem badTy.fields) :=
  ⟨C2_members_in_order mixReg "Mix" mixTy strMem (by decide),
   C2_members_in_order badReg "Bad" badTy badMem (by decide)⟩

/-- C3: SerializeObject on an unknown type name or a null instance
returns exactly the two-character empty object (the function is total, it
never raises). -/
theorem C3_soft_fail (reg : Registry) (tn : String) (inst : Option Instance)
    (h : GetType reg tn = none ∨ inst = none) :
    SerializeObject reg tn inst = "\x7b\x7d" := by
  rcases h with h | h
  · cases inst <;> simp [SerializeObject, h]
  · subst h
    cases hg : GetType reg tn <;> simp [SerializeObject, hg]

/-- C3 witness: unknown type name on the empty registry. -/
theorem C3_soft_fail_witness :
    SerializeObject emptyRegistry "Nope" (some pointMem) = "\x7b\x7d" :=
  C3_soft_fail emptyRegistry "Nope" (some pointMem) (Or.inl (by decide))

/-- C4: each typed flat-API getter returns its zero, false or empty
sentinel whenever the type is not registered, the field is absent, or the
declared kind differs from the accessor kind.  The getters are pure
functions of the registry and names under these conditions: the sentinel
holds for every instance memory m, so the result does not depend on the
instance memory at all. -/
theorem C4_getter_sentinels (reg : Registry) (tn fn : String) (m : Instance)
    (oldBuf : String) (bsz : Int) (hbsz : 1 ≤ bsz) :
    (getterErrorCond reg tn fn PropertyType.Float →
      Reflection_GetFloatValue reg (some tn) (some fn) (some m) = 0) ∧
    (getterErrorCond reg tn fn PropertyType.Int →
      Reflection_GetIntValue reg (some tn) (some fn) (some m) = 0) ∧
    (getterErrorCond reg tn fn PropertyType.Bool →
      Reflection_GetBoolValue reg (some tn) (some fn) (some m) = false) ∧
    (getterErrorCond reg tn fn PropertyType.String →
      Reflection_GetStringValue reg (some tn) (some fn) (some m) oldBuf bsz = "") := by
  have hnot : ¬ bsz ≤ 0 := by omega
  refine ⟨?_, ?_, ?_, ?_⟩ <;>
  · rintro (h | ⟨ti, hty, hf⟩ | ⟨ti, f, hty, hf, hk⟩) <;>
      simp [Reflection_GetFloatValue, Reflection_GetIntValue, Reflection_GetBoolValue,
        Reflection_GetStringValue, hnot, *]

/-- C4 witness: unknown type on the empty registry. -/
theorem C4_getter_sentinels_witness :
    Reflection_GetFloatValue emptyRegistry (some "T") (some "f") (some zeroMem) = 0 ∧
    Reflection_GetIntValue emptyRegistry (some "T") (some "f") (some zeroMem) = 0 ∧
    Reflection_GetBoolValue emptyRegistry (some "T") (some "f") (some zeroMem) = false ∧
    Reflection_GetStringValue emptyRegistry (some "T") (some "f") (some zeroMem) "junk" 4 = "" := by
  have h := C4_getter_sentinels emptyRegistry "T" "f" zeroMem "junk" 4 (by decide)
  exact ⟨h.1 (Or.inl rfl), h.2.1 (Or.inl rfl), h.2.2.1 (Or.inl rfl), h.2.2.2 (Or.inl rfl)⟩

/-- C5: read-after-write through the flat API: for a registered field of
the matching kind, a typed getter immediately after the typed setter with
the same type, field and instance returns the written value; for the
String pair the caller buffer must be able to hold the value. -/
theorem C5_read_after_write (reg : Registry) (tn fn : String) (ti : TypeInfo) (f : FieldInfo)
    (m : Instance) (hty : GetType reg tn = some ti) (hf : ti.GetField fn = some f) :
    (f.type = PropertyType.Float → ∀ v : ℚ,
      Reflection_GetFloatValue reg (some tn) (some fn)
        (Reflection_SetFloatValue reg (some tn) (some fn) (some m) v) = v) ∧
    (f.type = PropertyType.Int → ∀ v : Int,
      Reflection_GetIntValue reg (some tn) (some fn)
        (Reflection_SetIntValue reg (some tn) (some fn) (some m) v) = v) ∧
    (f.type = PropertyType.Bool → ∀ v : Bool,
      Reflection_GetBoolValue reg (some tn) (some fn)
        (Reflection_SetBoolValue reg (some tn) (some fn) (some m) v) = v) ∧
    (f.type = PropertyType.String → ∀ (v oldBuf : String) (bsz : Int),
      (v.length : Int) < bsz →
      Reflection_GetStringValue reg (some tn) (some fn)
        (Reflection_SetStringValue reg (some tn) (some fn) (some m) (some v)) oldBuf bsz = v) := by
  refine ⟨?_, ?_, ?_, ?_⟩
  · intro hk v
    simp [Reflection_SetFloatValue, Reflection_GetFloatValue, hty, hf, hk, readFloat, writeCell]
  · intro hk v
    simp [Reflection_SetIntValue, Reflection_GetIntValue, hty, hf, hk, readInt, writeCell]
  · intro hk v
    simp [Reflection_SetBoolValue, Reflection_GetBoolValue, hty, hf, hk, readBool, writeCell]
  · intro hk v oldBuf bsz hlen
    have hbsz : ¬ bsz ≤ 0 := by omega
    have hvl : v.data.length = v.length := rfl
    simp [Reflection_SetStringValue, Reflection_GetStringValue, hty, hf, hk, hbsz, cstrWrite,
      readString, writeCell]
    rw [List.take_of_length_le (show v.data.length ≤ bsz.toNat - 1 by omega)]

/-- C5 witness: the four setter-getter pairs on the Mix type. -/
theorem C5_read_after_write_witness :
    Reflection_GetFloatValue mixReg (some "Mix") (some "f")
      (Reflection_SetFloatValue mixReg (some "Mix") (some "f") (some zeroMem) 7) = 7 ∧
    Reflection_GetIntValue mixReg (some "Mix") (some "i")
      (Reflection_SetIntValue mixReg (some "Mix") (some "i") (some zeroMem) (-3)) = -3 ∧
    Reflection_GetBoolValue mixReg (some "Mix") (some "b")
      (Reflection_SetBoolValue mixReg (some "Mix") (some "b") (some zeroMem) true) = true ∧
    Reflection_GetStringValue mixReg (some "Mix") (some "s")
      (Reflection_SetStringValue mixReg (some "Mix") (some "s") (some zeroMem) (some "hi"))
      "old" 8 = "hi" := by
  refine ⟨?_, ?_, ?_, ?_⟩
  · exact (C5_read_after_write mixReg "Mix" "f" mixTy ⟨"f", PropertyType.Float, 8⟩ zeroMem
      (by decide) (by decide)).1 rfl 7
  · exact (C5_read_after_write mixReg "Mix" "i" mixTy ⟨"i", PropertyType.Int, 4⟩ zeroMem
      (by decide) (by decide)).2.1 rfl (-3)
  · exact (C5_read_after_write mixReg "Mix" "b" mixTy ⟨"b", PropertyType.Bool, 0⟩ zeroMem
      (by decide) (by decide)).2.2.1 rfl true
  · exact (C5_read_after_write mixReg "Mix" "s" mixTy ⟨"s", PropertyType.String, 16⟩ zeroMem
      (by decide) (by decide)).2.2.2 rfl "hi" "old" 8 (by decide)

/-- C6 counterexample: Serialization_ToJson with a two-byte buffer and a
two-byte serialization returns -1 and leaves the buffer unchanged, so the
overflow is signaled by the return value and the output is not truncated
into the buffer. -/
theorem C6_truncation_counterexample :
    Serialization_ToJson emptyRegistry (some "Nope") (some zeroMem) "Z" 2 = (-1, "Z") ∧
    "Z" ≠ cstrWrite (SerializeObject emptyRegistry "Nope" (some zeroMem)) 2 := by
  constructor
  · decide
  · decide

/-- Reflection_GetStringValue on a found String field writes exactly the
strncpy truncation of the field value. -/
theorem getStringValue_trunc (reg : Registry) (tn fn : String) (ti : TypeInfo) (f : FieldInfo)
    (m : Instance) (oldBuf : String) (bsz : Int) (h1 : 1 ≤ bsz)
    (hty : GetType reg tn = some ti) (hf : ti.GetField fn = some f)
    (hk : f.type = PropertyType.String) :
    Reflection_GetStringValue reg (some tn) (some fn) (some m) oldBuf bsz =
      cstrWrite (readString m f.offset) bsz := by
  have hnot : ¬ bsz ≤ 0 := by omega
  simp [Reflection_GetStringValue, hty, hf, hk, hnot]

/-- IPC_ClientSendCommand writes exactly the strncpy truncation of the
response, its boolean result independent of the truncation. -/
theorem clientSendCommand_trunc (c : IPCClient) (ct : Int) (pl oldResp : String) (bsz : Int)
    (h1 : 1 ≤ bsz) :
    IPC_ClientSendCommand (some c) ct (some pl) oldResp bsz =
      (!(c.SendCommand (intToMessageType ct) pl).1.isEmpty,
        cstrWrite (c.SendCommand (intToMessageType ct) pl).1 bsz,
        some (c.SendCommand (intToMessageType ct) pl).2) := by
  have hnot : ¬ bsz ≤ 0 := by omega
  simp [IPC_ClientSendCommand, hnot]

/-- Serialization_ToJson on an output at least as long as the buffer
returns -1 and leaves the buffer unchanged. -/
theorem toJson_overflow (reg : Registry) (tn : String) (m : Instance) (oldBuf : String)
    (bsz : Int) (h1 : 1 ≤ bsz)
    (hlong : ((SerializeObject reg tn (some m)).length : Int) ≥ bsz) :
    Serialization_ToJson reg (some tn) (some m) oldBuf bsz = (-1, oldBuf) := by
  have hnot : ¬ bsz ≤ 0 := by omega
  simp [Serialization_ToJson, hnot, hlong]

/-- Reflection_GetTypeName with an in-range index writes exactly the
strncpy truncation of the name. -/
theorem getTypeName_trunc (reg : Registry) (idx : Int) (oldBuf : String) (bsz : Int)
    (h1 : 1 ≤ bsz) (h2 : 0 ≤ idx) (h3 : idx < ((GetAllTypeNames reg).length : Int)) :
    Reflection_GetTypeName reg idx oldBuf bsz =
      cstrWrite ((GetAllTypeNames reg).getD idx.toNat "") bsz := by
  have hnot : ¬ bsz ≤ 0 := by omega
  simp only [Reflection_GetTypeName, if_neg hnot]
  rw [if_pos ⟨h2, h3⟩]

/-- Reflection_GetFieldName with a found type and in-range index writes
exactly the strncpy truncation of the field name. -/
theorem getFieldName_trunc (reg : Registry) (tn : String) (ti : TypeInfo) (idx : Int)
    (oldBuf : String) (bsz : Int) (h1 : 1 ≤ bsz) (hty : GetType reg tn = some ti)
    (h2 : 0 ≤ idx) (h3 : idx < (ti.fields.length : Int)) :
    Reflection_GetFieldName reg (some tn) idx oldBuf bsz =
      cstrWrite (ti.fields.getD idx.toNat ⟨"", PropertyType.Custom, 0⟩).name bsz := by
  have hnot : ¬ bsz ≤ 0 := by omega
  simp only [Reflection_GetFieldName, if_neg hnot, hty]
  rw [if_pos ⟨h2, h3⟩]

/-- C6 (amended): the strncpy-based flat-API string outputs
(Reflection_GetStringValue, the IPC_ClientSendCommand response,
Reflection_GetTypeName, Reflection_GetFieldName) write the truncation of
the output string to fit the buffer and signal an overflow only by that
truncation, the non-buffer return value being independent of it;
Serialization_ToJson instead signals an output at least as long as the
buffer by returning -1 and leaves the buffer unchanged. -/
theorem C6_truncation_behavior (reg : Registry) :
    (∀ (tn fn : String) (ti : TypeInfo) (f : FieldInfo) (m : Instance) (oldBuf : String)
        (bsz : Int), 1 ≤ bsz → GetType reg tn = some ti → ti.GetField fn = some f →
        f.type = PropertyType.String →
        Reflection_GetStringValue reg (some tn) (some fn) (some m) oldBuf bsz =
          cstrWrite (readString m f.offset) bsz) ∧
    (∀ (c : IPCClient) (ct : Int) (pl oldResp : String) (bsz : Int), 1 ≤ bsz →
        IPC_ClientSendCommand (some c) ct (some pl) oldResp bsz =
          (!(c.SendCommand (intToMessageType ct) pl).1.isEmpty,
            cstrWrite (c.SendCommand (intToMessageType ct) pl).1 bsz,
            some (c.SendCommand (intToMessageType ct) pl).2)) ∧
    (∀ (idx : Int) (oldBuf : String) (bsz : Int), 1 ≤ bsz → 0 ≤ idx →
        idx < ((GetAllTypeNames reg).length : Int) →
        Reflection_GetTypeName reg idx oldBuf bsz =
          cstrWrite ((GetAllTypeNames reg).getD idx.toNat "") bsz) ∧
    (∀ (tn : String) (ti : TypeInfo) (idx : Int) (oldBuf : String) (bsz : Int), 1 ≤ bsz →
        GetType reg tn = some ti → 0 ≤ idx → idx < (ti.fields.length : Int) →
        Reflection_GetFieldName reg (some tn) idx oldBuf bsz =
          cstrWrite (ti.fields.getD idx.toNat ⟨"", PropertyType.Custom, 0⟩).name bsz) ∧
    (∀ (tn : String) (m : Instance) (oldBuf : String) (bsz : Int), 1 ≤ bsz →
        ((SerializeObject reg tn (some m)).length : Int) ≥ bsz →
        Serialization_ToJson reg (some tn) (some m) oldBuf bsz = (-1, oldBuf)) := by
  refine ⟨?_, ?_, ?_, ?_, ?_⟩
  · intro tn fn ti f m oldBuf bsz h1 hty hf hk
    exact getStringValue_trunc reg tn fn ti f m oldBuf bsz h1 hty hf hk
  · intro c ct pl oldResp bsz h1
    exact clientSendCommand_trunc c ct pl oldResp bsz h1
  · intro idx oldBuf bsz h1 h2 h3
    exact getTypeName_trunc reg idx oldBuf bsz h1 h2 h3
  · intro tn ti idx oldBuf bsz h1 hty h2 h3
    exact getFieldName_trunc reg tn ti idx oldBuf bsz h1 hty h2 h3
  · intro tn m oldBuf bsz h1 hlong
    exact toJson_overflow reg tn m oldBuf bsz h1 hlong

/-- C6 witness: truncation of a long string field, the command response
and the two name getters, and the ToJson refusal, all at concrete
inputs. -/
theorem C6_truncation_behavior_witness :
    Reflection_GetStringValue mixReg (some "Mix") (some "s") (some strMem) "old" 6 =
      cstrWrite (readString strMem 16) 6 ∧
    IPC_ClientSendCommand (some IPCClient.new) 0 (some "p") "old" 8 =
      (!(IPCClient.new.SendCommand (intToMessageType 0) "p").1.isEmpty,
        cstrWrite (IPCClient.new.SendCommand (intToMessageType 0) "p").1 8,
        some (IPCClient.new.SendCommand (intToMessageType 0) "p").2) ∧
    Reflection_GetTypeName mixReg 0 "old" 3 = cstrWrite ((GetAllTypeNames mixReg).getD 0 "") 3 ∧
    Reflection_GetFieldName mixReg (some "Mix") 3 "old" 2 =
      cstrWrite ((mixTy.fields).getD 3 ⟨"", PropertyType.Custom, 0⟩).name 2 ∧
    Serialization_ToJson pointReg (some "Point") (some pointMem) "old" 10 = (-1, "old") := by
  refine ⟨?_, ?_, ?_, ?_, ?_⟩
  · exact (C6_truncation_behavior mixReg).1 "Mix" "s" mixTy ⟨"s", PropertyType.String, 16⟩
      strMem "old" 6 (by decide) (by decide) (by decide) rfl
  · exact (C6_truncation_behavior mixReg).2.1 IPCClient.new 0 "p" "old" 8 (by decide)
  · exact (C6_truncation_behavior mixReg).2.2.1 0 "old" 3 (by decide) (by decide) (by decide)
  · exact (C6_truncation_behavior mixReg).2.2.2.1 "Mix" mixTy 3 "old" 2 (by decide) (by decide)
      (by decide) (by decide)
  · exact (C6_truncation_behavior pointReg).2.2.2.2 "Point" pointMem "old" 10 (by decide)
      (by decide)

/-- C7: the default GetTypeInfo handler answers the Type-not-found error
object on the DoesNotExist payload when no such type is registered, and
answers the Invalid-request error object on every payload from which no
type name can be extracted (extractTypeName mirrors the handler parse,
including the size_t wraparound of find plus 3). -/
theorem C7_get_type_info_errors (reg : Registry)
    (h : GetType reg "DoesNotExist" = none) :
    handleGetTypeInfo reg "\x7b\"typeName\":\"DoesNotExist\"\x7d" =
      "\x7b\"error\":\"Type not found\"\x7d" ∧
    (∀ payload : String, extractTypeName payload = none →
      handleGetTypeInfo reg payload = "\x7b\"error\":\"Invalid request\"\x7d") := by
  constructor
  · have hx : extractTypeName "\x7b\"typeName\":\"DoesNotExist\"\x7d" = some "DoesNotExist" := by
      decide
    simp [handleGetTypeInfo, hx, h]
  · intro p hp
    simp [handleGetTypeInfo, hp]

/-- C7 witness: the handler on the empty registry, with a quote-free
payload for the unparsable case. -/
theorem C7_get_type_info_errors_witness :
    handleGetTypeInfo emptyRegistry "\x7b\"typeName\":\"DoesNotExist\"\x7d" =
      "\x7b\"error\":\"Type not found\"\x7d" ∧
    handleGetTypeInfo emptyRegistry "no quotes here" =
      "\x7b\"error\":\"Invalid request\"\x7d" := by
  have h := C7_get_type_info_errors emptyRegistry rfl
  exact ⟨h.1, h.2 "no quotes here" (by decide)⟩

/-- C8: Start twice with the same pipe name returns the same pair of
boolean result and state, so the running state after the second call
equals the one after the first and both calls return the same boolean;
Stop on a stopped server leaves the state unchanged. -/
theorem C8_start_stop_idempotent (s : IPCServer) (p : String) :
    ((s.Start p).2).Start p = s.Start p ∧ (s.IsRunning = false → s.Stop = s) := by
  constructor
  · by_cases h : s.m_running
    · simp [IPCServer.Start, h]
    · simp [IPCServer.Start, h]
  · intro h
    have hb : s.m_running = false := h
    simp [IPCServer.Stop, hb]

/-- C8 witness: a fresh server. -/
theorem C8_start_stop_idempotent_witness :
    (((IPCServer.new emptyRegistry).Start "pipe").2).Start "pipe" =
      (IPCServer.new emptyRegistry).Start "pipe" ∧
    (IPCServer.new emptyRegistry).Stop = IPCServer.new emptyRegistry := by
  have h := C8_start_stop_idempotent (IPCServer.new emptyRegistry) "pipe"
  exact ⟨h.1, h.2 rfl⟩

/-- The strncpy model never leaves more than bufferSize - 1 characters. -/
theorem cstrWrite_length (s : String) (bsz : Int) : (cstrWrite s bsz).length ≤ (bsz - 1).toNat := by
  have h : (cstrWrite s bsz).length = (s.toList.take (bsz - 1).toNat).length := rfl
  rw [h, List.length_take]
  exact Nat.min_le_left _ _

/-- C9 counterexample: Serialization_ToJson on an output longer than the
buffer does not truncate into the buffer — it leaves the buffer
untouched and returns -1 — so it is not covered by the truncation
wording of the claim. -/
theorem C9_buffer_counterexample :
    Serialization_ToJson pointReg (some "Point") (some pointMem) "A" 10 = (-1, "A") ∧
    "A" ≠ cstrWrite (SerializeObject pointReg "Point" (some pointMem)) 10 := by
  constructor
  · decide
  · decide

/-- C9 (amended): every string-writing flat-API function keeps the buffer
content within bufferSize - 1 characters (so with its terminator it never
overruns the bufferSize-byte buffer), given a well-formed incoming
buffer; the four strncpy-based writers (Reflection_GetTypeName,
Reflection_GetFieldName on found input, Reflection_GetStringValue on a
found String field, the IPC_ClientSendCommand response) write exactly the
truncation of their output string to bufferSize - 1 characters;
Serialization_ToJson never overruns either, but on an output at least as
long as the buffer it leaves the buffer unchanged and returns -1 instead
of truncating. -/
theorem C9_buffer_safety (reg : Registry) :
    (∀ (idx : Int) (oldBuf : String) (bsz : Int), 1 ≤ bsz → oldBuf.length ≤ (bsz - 1).toNat →
      (Reflection_GetTypeName reg idx oldBuf bsz).length ≤ (bsz - 1).toNat) ∧
    (∀ (tn : Option String) (idx : Int) (oldBuf : String) (bsz : Int), 1 ≤ bsz →
      oldBuf.length ≤ (bsz - 1).toNat →
      (Reflection_GetFieldName reg tn idx oldBuf bsz).length ≤ (bsz - 1).toNat) ∧
    (∀ (tn fn : Option String) (inst : Option Instance) (oldBuf : String) (bsz : Int), 1 ≤ bsz →
      oldBuf.length ≤ (bsz - 1).toNat →
      (Reflection_GetStringValue reg tn fn inst oldBuf bsz).length ≤ (bsz - 1).toNat) ∧
    (∀ (client : Option IPCClient) (ct : Int) (pl : Option String) (oldResp : String) (bsz : Int),
      1 ≤ bsz → oldResp.length ≤ (bsz - 1).toNat →
      (IPC_ClientSendCommand client ct pl oldResp bsz).2.1.length ≤ (bsz - 1).toNat) ∧
    (∀ (tn : Option String) (inst : Option Instance) (oldBuf : String) (bsz : Int), 1 ≤ bsz →
      oldBuf.length ≤ (bsz - 1).toNat →
      ((Serialization_ToJson reg tn inst oldBuf bsz).2).length ≤ (bsz - 1).toNat) ∧
    (∀ (idx : Int) (oldBuf : String) (bsz : Int), 1 ≤ bsz → 0 ≤ idx →
      idx < ((GetAllTypeNames reg).length : Int) →
      Reflection_GetTypeName reg idx oldBuf bsz =
        cstrWrite ((GetAllTypeNames reg).getD idx.toNat "") bsz) ∧
    (∀ (tn : String) (ti : TypeInfo) (idx : Int) (oldBuf : String) (bsz : Int), 1 ≤ bsz →
      GetType reg tn = some ti → 0 ≤ idx → idx < (ti.fields.length : Int) →
      Reflection_GetFieldName reg (some tn) idx oldBuf bsz =
        cstrWrite (ti.fields.getD idx.toNat ⟨"", PropertyType.Custom, 0⟩).name bsz) ∧
    (∀ (tn fn : String) (ti : TypeInfo) (f : FieldInfo) (m : Instance) (oldBuf : String)
        (bsz : Int), 1 ≤ bsz → GetType reg tn = some ti → ti.GetField fn = some f →
        f.type = PropertyType.String →
        Reflection_GetStringValue reg (some tn) (some fn) (some m) oldBuf bsz =
          cstrWrite (readString m f.offset) bsz) ∧
    (∀ (c : IPCClient) (ct : Int) (pl oldResp : String) (bsz : Int), 1 ≤ bsz →
      (IPC_ClientSendCommand (some c) ct (some pl) oldResp bsz).2.1 =
        cstrWrite (c.SendCommand (intToMessageType ct) pl).1 bsz) ∧
    (∀ (tn : String) (m : Instance) (oldBuf : String) (bsz : Int), 1 ≤ bsz →
      ((SerializeObject reg tn (some m)).length : Int) ≥ bsz →
      Serialization_ToJson reg (some tn) (some m) oldBuf bsz = (-1, oldBuf)) := by
  refine ⟨?_, ?_, ?_, ?_, ?_, ?_, ?_, ?_, ?_, ?_⟩
  · intro idx oldBuf bsz h1 hold
    have hnot : ¬ bsz ≤ 0 := by omega
    simp only [Reflection_GetTypeName, if_neg hnot]
    split
    · exact cstrWrite_length _ _
    · simp
  · intro tn idx oldBuf bsz h1 hold
    have hnot : ¬ bsz ≤ 0 := by omega
    cases tn with
    | none => simpa [Reflection_GetFieldName] using hold
    | some tn =>
      simp only [Reflection_GetFieldName, if_neg hnot]
      cases hg : GetType reg tn with
      | none => simp
      | some ti =>
        simp only
        split
        · exact cstrWrite_length _ _
        · simp
  · intro tn fn inst oldBuf bsz h1 hold
    have hnot : ¬ bsz ≤ 0 := by omega
    cases tn with
    | none => simpa [Reflection_GetStringValue] using hold
    | some tn =>
      cases fn with
      | none => simpa [Reflection_GetStringValue] using hold
      | some fn =>
        cases inst with
        | none => simpa [Reflection_GetStringValue] using hold
        | some m =>
          simp only [Reflection_GetStringValue, if_neg hnot]
          cases hg : GetType reg tn with
          | none => simp
          | some ti =>
            simp only
            cases hf : ti.GetField fn with
            | none => simp
            | some f =>
              simp only
              split
              · exact cstrWrite_length _ _
              · simp
  · intro client ct pl oldResp bsz h1 hold
    have hnot : ¬ bsz ≤ 0 := by omega
    cases client with
    | none => simpa [IPC_ClientSendCommand] using hold
    | some c =>
      cases pl with
      | none => simpa [IPC_ClientSendCommand] using hold
      | some pl =>
        simp only [IPC_ClientSendCommand, if_neg hnot]
        exact cstrWrite_length _ _
  · intro tn inst oldBuf bsz h1 hold
    have hnot : ¬ bsz ≤ 0 := by omega
    cases tn with
    | none => simpa [Serialization_ToJson] using hold
    | some tn =>
      cases inst with
      | none => simpa [Serialization_ToJson] using hold
      | some m =>
        simp only [Serialization_ToJson, if_neg hnot]
        split
        · exact hold
        · exact cstrWrite_length _ _
  · intro idx oldBuf bsz h1 h2 h3
    exact getTypeName_trunc reg idx oldBuf bsz h1 h2 h3
  · intro tn ti idx oldBuf bsz h1 hty h2 h3
    exact getFieldName_trunc reg tn ti idx oldBuf bsz h1 hty h2 h3
  · intro tn fn ti f m oldBuf bsz h1 hty hf hk
    exact getStringValue_trunc reg tn fn ti f m oldBuf bsz h1 hty hf hk
  · intro c ct pl oldResp bsz h1
    rw [clientSendCommand_trunc c ct pl oldResp bsz h1]
  · intro tn m oldBuf bsz h1 hlong
    exact toJson_overflow reg tn m oldBuf bsz h1 hlong

/-- C9 witness: the length bounds, the in-range truncations and the
ToJson overflow refusal at concrete inputs. -/
theorem C9_buffer_safety_witness :
    (Reflection_GetTypeName pointReg 0 "ab" 4).length ≤ 3 ∧
    (Reflection_GetFieldName pointReg (some "Point") 1 "ab" 4).length ≤ 3 ∧
    (Reflection_GetStringValue mixReg (some "Mix") (some "s") (some strMem) "ab" 4).length ≤ 3 ∧
    (IPC_ClientSendCommand (some IPCClient.new) 0 (some "p") "ab" 4).2.1.length ≤ 3 ∧
    ((Serialization_ToJson pointReg (some "Point") (some pointMem) "ab" 4).2).length ≤ 3 ∧
    Reflection_GetTypeName pointReg 0 "ab" 4 =
      cstrWrite ((GetAllTypeNames pointReg).getD 0 "") 4 ∧
    Reflection_GetFieldName pointReg (some "Point") 0 "ab" 4 =
      cstrWrite ((pointTy.fields).getD 0 ⟨"", PropertyType.Custom, 0⟩).name 4 ∧
    Reflection_GetStringValue mixReg (some "Mix") (some "s") (some strMem) "ab" 5 =
      cstrWrite (readString strMem 16) 5 ∧
    (IPC_ClientSendCommand (some IPCClient.new) 1 (some "q") "ab" 5).2.1 =
      cstrWrite (IPCClient.new.SendCommand (intToMessageType 1) "q").1 5 ∧
    Serialization_ToJson pointReg (some "Point") (some pointMem) "ab" 4 = (-1, "ab") := by
  obtain ⟨a1, a2, a3, a4, a5, a6, a7, a8, a9, a10⟩ := C9_buffer_safety pointReg
  obtain ⟨b1, b2, b3, b4, b5, b6, b7, b8, b9, b10⟩ := C9_buffer_safety mixReg
  exact ⟨a1 0 "ab" 4 (by decide) (by decide),
    a2 (some "Point") 1 "ab" 4 (by decide) (by decide),
    b3 (some "Mix") (some "s") (some strMem) "ab" 4 (by decide) (by decide),
    a4 (some IPCClient.new) 0 (some "p") "ab" 4 (by decide) (by decide),
    a5 (some "Point") (some pointMem) "ab" 4 (by decide) (by decide),
    a6 0 "ab" 4 (by decide) (by decide) (by decide),
    a7 "Point" pointTy 0 "ab" 4 (by decide) (by decide) (by decide) (by decide),
    b8 "Mix" "s" mixTy ⟨"s", PropertyType.String, 16⟩ strMem "ab" 5 (by decide) (by decide)
      (by decide) rfl,
    a9 IPCClient.new 1 "q" "ab" 5 (by decide),
    a10 "Point" pointMem "ab" 4 (by decide) (by decide)⟩

/-- The stub server preserves a false running flag across every call. -/
theorem applyOps_not_running (ops : List ServerOp) :
    ∀ s : IPCServer, s.m_running = false → (applyOps s ops).m_running = false := by
  induction ops with
  | nil => intro s h; exact h
  | cons op rest ih =>
    intro s h
    have hstep : (applyOp s op).m_running = false := by
      cases op <;>
        simp [applyOp, IPCServer.Start, IPCServer.Stop, IPCServer.Update, IPCServer.SendEvent,
          IPCServer.RegisterHandler, h]
    exact ih _ hstep

/-- C10: the stub server never enters the running state: after any call
sequence from construction IsRunning is false, Start from the stopped
state returns false, and Update and SendEvent leave the state untouched. -/
theorem C10_never_running (reg : Registry) :
    (∀ ops : List ServerOp, (applyOps (IPCServer.new reg) ops).IsRunning = false) ∧
    (∀ (s : IPCServer) (p : String), s.IsRunning = false → (s.Start p).1 = false) ∧
    (∀ s : IPCServer, s.Update = s) ∧
    (∀ (s : IPCServer) (t : MessageType) (pl : String), s.SendEvent t pl = s) := by
  refine ⟨?_, ?_, ?_, ?_⟩
  · intro ops
    exact applyOps_not_running ops _ rfl
  · intro s p h
    have hb : s.m_running = false := h
    simp [IPCServer.Start, hb]
  · intro s
    simp [IPCServer.Update]
  · intro s t pl
    simp [IPCServer.SendEvent]

/-- C10 witness: a concrete call sequence on a fresh server. -/
theorem C10_never_running_witness :
    (applyOps (IPCServer.new emptyRegistry)
      [ServerOp.start "p", ServerOp.update, ServerOp.sendEvent MessageType.SceneChanged "e",
        ServerOp.stop]).IsRunning = false ∧
    ((IPCServer.new emptyRegistry).Start "p").1 = false := by
  have h := C10_never_running emptyRegistry
  exact ⟨h.1 _, h.2.1 _ "p" rfl⟩

end Chronicles
